import Mathlib

/-!
Verification development for the server core of the aiagent-console-web
repository: the `AgentManager` session registry with its per-tab sequenced
output buffers (agent-manager source), the per-connection `WSHandler`
subscriber channel, and the `GitWorktreeManager.tryLocalMerge` protocol.

The TypeScript classes are shallowly embedded as pure Lean functions over
explicit state records.  JavaScript `Map`s become association lists with
JS `Map.set`/`Map.delete` semantics, strings stay `String`, the event bus
`emit` calls and WebSocket `send` calls become explicit lists of emitted
events / sent frames returned next to the updated state, and `Date.now()`
becomes an explicit `now : Nat` argument.  Methods that `throw` return
`Option` (`none` = exception); methods that handle a missing agent/tab
with a default return that default, exactly as in the source.
-/

/-! ## Data model (shared/types and agent-manager internal state) -/

/-- Tab/agent status: the string union `idle | running | stopped`. -/
inductive Status where
  | idle
  | running
  | stopped
deriving DecidableEq

/-- `OutputChunk` from shared types: `{seq, data, timestamp}`. -/
structure OutputChunk where
  seq : Nat
  data : String
  timestamp : Nat
deriving DecidableEq

/-- `BufferStats` from shared types. `firstSeq`/`lastSeq` can be `-1`, so `Int`. -/
structure BufferStats where
  chunkCount : Nat
  totalSize : Nat
  firstSeq : Int
  lastSeq : Int
deriving DecidableEq

/-- `TabProcess` from the agent-manager source.  The `pty: IPty | null`
field is abstracted to whether a live PTY is attached, `info` to its
mutable `status`, and `logStream: WriteStream | null` to whether a log
stream is open. -/
structure TabProcess where
  ptyRunning : Bool
  status : Status
  outputChunks : List OutputChunk
  currentSeq : Nat
  pendingData : String
  logOpen : Bool
deriving DecidableEq

/-- `AgentProcess`: the agent record (its mutable status) plus the tab map.
The JS `Map<string, TabProcess>` becomes an association list in insertion
order, so `tabs.keys().next().value` is the first entry's key. -/
structure AgentProcess where
  status : Status
  tabs : List (String × TabProcess)
deriving DecidableEq

/-- The mutable state of `AgentManager`: `agents`, `controlOwners`
(`agentId:tabId -> clientId`) and `flushTimers` (the set of keys with an
armed debounce timer; the timer handles themselves carry no state). -/
structure AgentM where
  agents : List (String × AgentProcess)
  controlOwners : List (String × String)
  flushTimers : List String
deriving DecidableEq

/-- Events emitted on the in-process event bus (`this.emit(...)` calls). -/
inductive Ev where
  | controlChanged (agentId tabId : String) (owner : Option String)
  | ptyData (agentId tabId : String) (data : String) (seq : Nat)
  | tabStatus (agentId tabId : String) (st : Status)
  | agentStatus (agentId : String) (st : Status)
  | tabCreated (agentId tabId : String)
  | tabClosed (agentId tabId : String)
  | agentsUpdated
deriving DecidableEq

/-! ## Association-list model of JS `Map` -/

/-- `Map.get`: the value at the first (in a well-formed map, only)
binding of `k`. -/
def alistGet {α : Type} (k : String) (l : List (String × α)) : Option α :=
  (l.find? (fun p => p.1 = k)).map (fun p => p.2)

/-- `Map.delete`: drop every binding of `k`. -/
def alistErase {α : Type} (k : String) (l : List (String × α)) : List (String × α) :=
  l.filter (fun p => ¬ p.1 = k)

/-- `Map.set`: JS semantics — update the (first) binding in place,
preserving insertion order, or append at the end when the key is absent. -/
def alistSet {α : Type} (k : String) (v : α) : List (String × α) → List (String × α)
  | [] => [(k, v)]
  | p :: l => if p.1 = k then (k, v) :: l else p :: alistSet k v l

/-! ## Buffer constants and per-tab core operations

These are the actions of `addOutputChunk` / `flushPendingData` /
`handlePtyData` on the single `TabProcess` they look up; the manager-level
functions below are defined through them. -/

/-- `MAX_CHUNKS = 1000`: max number of chunks retained per tab. -/
def MAX_CHUNKS : Nat := 1000

/-- `MAX_CHUNK_SIZE = 4096`: pending data is flushed synchronously at this size. -/
def MAX_CHUNK_SIZE : Nat := 4096

/-- `FLUSH_DEBOUNCE`: the 50 ms one-shot flush timer delay (`setTimeout(..., 50)`). -/
def FLUSH_DEBOUNCE : Nat := 50

/-- The ring trim in `addOutputChunk`: `if (chunks.length > MAX_CHUNKS)
chunks = chunks.slice(-MAX_CHUNKS)` — keep only the last `MAX_CHUNKS`. -/
def trimChunks (cs : List OutputChunk) : List OutputChunk :=
  if MAX_CHUNKS < cs.length then cs.drop (cs.length - MAX_CHUNKS) else cs

/-- Core of `addOutputChunk`: build the chunk `{seq: currentSeq++, data,
timestamp: now}`, push it, trim the ring. -/
def tabAddChunk (tp : TabProcess) (data : String) (now : Nat) : TabProcess × OutputChunk :=
  let chunk : OutputChunk := { seq := tp.currentSeq, data := data, timestamp := now }
  ({ tp with
      currentSeq := tp.currentSeq + 1,
      outputChunks := trimChunks (tp.outputChunks ++ [chunk]) },
   chunk)

/-- `tabProcess.pendingData += data` (the accumulation step of `handlePtyData`). -/
def tabPend (tp : TabProcess) (data : String) : TabProcess :=
  { tp with pendingData := tp.pendingData ++ data }

/-- Buffer action of `flushPendingData`: if `pendingData` is non-empty,
turn it into one chunk and clear it; otherwise do nothing. -/
def tabFlush (tp : TabProcess) (now : Nat) : TabProcess :=
  if tp.pendingData = "" then tp
  else { (tabAddChunk tp tp.pendingData now).1 with pendingData := "" }

/-- Buffer action of `handlePtyData`: accumulate, then flush when the
pending data has reached `MAX_CHUNK_SIZE`. -/
def tabHandlePty (tp : TabProcess) (data : String) (now : Nat) : TabProcess :=
  let tp1 := tabPend tp data
  if MAX_CHUNK_SIZE ≤ tp1.pendingData.length then tabFlush tp1 now else tp1

/-- Ghost: the sequence numbers `flushPendingData` assigns from state `tp`
(one, namely `currentSeq`, iff the pending data is non-empty). -/
def tabFlushAssigns (tp : TabProcess) : List Nat :=
  if tp.pendingData = "" then [] else [tp.currentSeq]

/-- Ghost: the sequence numbers `handlePtyData` assigns from state `tp`
on input `data`. -/
def tabHandlePtyAssigns (tp : TabProcess) (data : String) : List Nat :=
  if MAX_CHUNK_SIZE ≤ (tp.pendingData ++ data).length then [tp.currentSeq] else []

/-- A fresh tab as built by `createAgent` / `createTab`:
`{pty: null, status idle, outputChunks: [], currentSeq: 0, pendingData: '', logStream: null}`. -/
def freshTab : TabProcess :=
  { ptyRunning := false, status := Status.idle, outputChunks := [],
    currentSeq := 0, pendingData := "", logOpen := false }

/-- The tab seeded by `loadPersistedAgents`: if a saved `outputBuffer` is
present (non-empty — JS truthiness), one chunk `{seq: 0, data: buffer}`
and `currentSeq = initialChunks.length = 1`; otherwise an empty buffer. -/
def restoredTab (buf : String) (now : Nat) : TabProcess :=
  { ptyRunning := false, status := Status.idle,
    outputChunks := if buf = "" then [] else [{ seq := 0, data := buf, timestamp := now }],
    currentSeq := if buf = "" then 0 else 1,
    pendingData := "", logOpen := false }

/-! ## Tab reachability (the buffer mutators) with assigned-seq ghost -/

/-- All states a tab buffer can be in, paired with the list of every
sequence number ever assigned for it, in assignment order.  The
constructors are exactly the ways the source creates or mutates a tab
buffer: fresh creation, restore-seeding on startup, `handlePtyData`
(append + conditional synchronous flush) and `flushPendingData` (directly
or when the debounce timer fires). -/
inductive ReachTab : TabProcess → List Nat → Prop where
  | new : ReachTab freshTab []
  | restored (buf : String) (now : Nat) :
      ReachTab (restoredTab buf now) (if buf = "" then [] else [0])
  | pty (data : String) (now : Nat) {tp : TabProcess} {as : List Nat} :
      ReachTab tp as → ReachTab (tabHandlePty tp data now) (as ++ tabHandlePtyAssigns tp data)
  | flush (now : Nat) {tp : TabProcess} {as : List Nat} :
      ReachTab tp as → ReachTab (tabFlush tp now) (as ++ tabFlushAssigns tp)

/-- The highest element of a list of assigned sequence numbers, `-1` when
none was ever assigned. -/
def highestSeq (as : List Nat) : Int :=
  as.foldr (fun (n : Nat) (m : Int) => max (n : Int) m) (-1)

/-! ## AgentManager operations -/

/-- `getControlKey(agentId, tabId)`. -/
def getControlKey (agentId tabId : String) : String :=
  agentId ++ ":" ++ tabId

/-- `getControlOwner`: `controlOwners.get(key) || null`. -/
def getControlOwner (s : AgentM) (agentId tabId : String) : Option String :=
  alistGet (getControlKey agentId tabId) s.controlOwners

/-- `hasControl`: `controlOwners.get(key) === clientId`. -/
def hasControl (s : AgentM) (agentId tabId clientId : String) : Bool :=
  getControlOwner s agentId tabId = some clientId

/-- `tryGainControl`: unconditionally set the owner, emit
`control-changed` with the new owner, return `true`. -/
def tryGainControl (s : AgentM) (agentId tabId clientId : String) :
    AgentM × Bool × List Ev :=
  ({ s with controlOwners := alistSet (getControlKey agentId tabId) clientId s.controlOwners },
   true,
   [Ev.controlChanged agentId tabId (some clientId)])

/-- `releaseControl`: delete the entry and emit `control-changed null`
only when the caller currently owns it. -/
def releaseControl (s : AgentM) (agentId tabId clientId : String) : AgentM × List Ev :=
  if alistGet (getControlKey agentId tabId) s.controlOwners = some clientId then
    ({ s with controlOwners := alistErase (getControlKey agentId tabId) s.controlOwners },
     [Ev.controlChanged agentId tabId none])
  else (s, [])

/-- `this.agents.get(agentId)`. -/
def findAgent (s : AgentM) (agentId : String) : Option AgentProcess :=
  alistGet agentId s.agents

/-- `agentProcess?.tabs.get(tabId)`. -/
def findTab (s : AgentM) (agentId tabId : String) : Option TabProcess :=
  match findAgent s agentId with
  | none => none
  | some ap => alistGet tabId ap.tabs

/-- Replace the looked-up tab's state (the Lean rendering of the in-place
mutation of the `TabProcess` object the source holds by reference). -/
def updateTab (s : AgentM) (agentId tabId : String) (tp : TabProcess) : AgentM :=
  match findAgent s agentId with
  | none => s
  | some ap =>
      { s with agents := alistSet agentId { ap with tabs := alistSet tabId tp ap.tabs } s.agents }

/-- `getOutputChunks(agentId, tabId, fromSeq)`: on a missing agent or tab
`{chunks: [], lastSeq: -1}`; otherwise the retained chunks with
`seq >= fromSeq` and `lastSeq = currentSeq - 1`. -/
def getOutputChunks (s : AgentM) (agentId tabId : String) (fromSeq : Int) :
    List OutputChunk × Int :=
  match findTab s agentId tabId with
  | none => ([], -1)
  | some tp =>
      (tp.outputChunks.filter (fun c => fromSeq ≤ (c.seq : Int)),
       (tp.currentSeq : Int) - 1)

/-- `getLastSeq(agentId, tabId)`: `currentSeq - 1`, or `-1` when the tab
is missing. -/
def getLastSeq (s : AgentM) (agentId tabId : String) : Int :=
  match findTab s agentId tabId with
  | none => -1
  | some tp => (tp.currentSeq : Int) - 1

/-- `getBufferStats(agentId, tabId)`: zero/`-1` defaults for a missing tab
or an empty ring; otherwise count, total data size, first retained seq and
`currentSeq - 1`. -/
def getBufferStats (s : AgentM) (agentId tabId : String) : BufferStats :=
  match findTab s agentId tabId with
  | none => { chunkCount := 0, totalSize := 0, firstSeq := -1, lastSeq := -1 }
  | some tp =>
      match tp.outputChunks with
      | [] => { chunkCount := 0, totalSize := 0, firstSeq := -1, lastSeq := -1 }
      | c :: rest =>
          { chunkCount := (c :: rest).length,
            totalSize := ((c :: rest).map (fun c => c.data.length)).sum,
            firstSeq := (c.seq : Int),
            lastSeq := (tp.currentSeq : Int) - 1 }

/-- `getOutputHistory(agentId, tabId)`: concatenation of the retained
chunk data, `''` for a missing tab. -/
def getOutputHistory (s : AgentM) (agentId tabId : String) : String :=
  match findTab s agentId tabId with
  | none => ""
  | some tp => String.join (tp.outputChunks.map (fun c => c.data))

/-- `addOutputChunk(agentId, tabId, data)`: `none` models the
`Tab not found` throw. -/
def addOutputChunk (s : AgentM) (agentId tabId : String) (data : String) (now : Nat) :
    Option (AgentM × OutputChunk) :=
  match findTab s agentId tabId with
  | none => none
  | some tp =>
      let r := tabAddChunk tp data now
      some (updateTab s agentId tabId r.1, r.2)

/-- `flushPendingData(agentId, tabId)`: cancel the armed timer for the
key (if any), then — if the tab exists and has pending data — make one
chunk out of it, clear `pendingData` and emit `pty-data` with the chunk's
data and seq. -/
def flushPendingData (s : AgentM) (agentId tabId : String) (now : Nat) : AgentM × List Ev :=
  let s1 : AgentM :=
    { s with flushTimers := s.flushTimers.filter (fun k => ¬ k = getControlKey agentId tabId) }
  match findTab s1 agentId tabId with
  | none => (s1, [])
  | some tp =>
      if tp.pendingData = "" then (s1, [])
      else
        let r := tabAddChunk tp tp.pendingData now
        (updateTab s1 agentId tabId { r.1 with pendingData := "" },
         [Ev.ptyData agentId tabId r.2.data r.2.seq])

/-- `handlePtyData(agentId, tabId, data)`: append to `pendingData`
(the `logStream.write` is an external effect, not state); flush
synchronously once `pendingData.length >= MAX_CHUNK_SIZE`, else arm the
one-shot `FLUSH_DEBOUNCE` timer if none is armed for this key. -/
def handlePtyData (s : AgentM) (agentId tabId : String) (data : String) (now : Nat) :
    AgentM × List Ev :=
  match findTab s agentId tabId with
  | none => (s, [])
  | some tp =>
      let tp1 := tabPend tp data
      let s1 := updateTab s agentId tabId tp1
      if MAX_CHUNK_SIZE ≤ tp1.pendingData.length then
        flushPendingData s1 agentId tabId now
      else if (s1.flushTimers.contains (getControlKey agentId tabId)) then (s1, [])
      else ({ s1 with flushTimers := s1.flushTimers ++ [getControlKey agentId tabId] }, [])

/-- `createAgent` (after the awaited worktree creation): register a new
agent with one fresh default tab and emit `agents-updated`.  The fresh
`uuidv4` ids are parameters. -/
def createAgentOp (s : AgentM) (agentId tabId : String) : AgentM × List Ev :=
  ({ s with agents :=
      s.agents ++ [(agentId, { status := Status.idle, tabs := [(tabId, freshTab)] })] },
   [Ev.agentsUpdated])

/-- `createTab`: append a fresh tab to an existing agent (a missing agent
throws, leaving the state unchanged). -/
def createTabOp (s : AgentM) (agentId tabId : String) : AgentM × List Ev :=
  match findAgent s agentId with
  | none => (s, [])
  | some ap =>
      ({ s with agents := alistSet agentId { ap with tabs := ap.tabs ++ [(tabId, freshTab)] } s.agents },
       [Ev.tabCreated agentId tabId, Ev.agentsUpdated])

/-- `closeTab`: clear the flush timer, kill the PTY / end the log
(external), remove the control entry, delete the tab. -/
def closeTabOp (s : AgentM) (agentId tabId : String) : AgentM × List Ev :=
  match findAgent s agentId with
  | none => (s, [])
  | some ap =>
      match alistGet tabId ap.tabs with
      | none => (s, [])
      | some _ =>
          ({ s with
              flushTimers := s.flushTimers.filter (fun k => ¬ k = getControlKey agentId tabId),
              controlOwners := alistErase (getControlKey agentId tabId) s.controlOwners,
              agents := alistSet agentId { ap with tabs := alistErase tabId ap.tabs } s.agents },
           [Ev.tabClosed agentId tabId, Ev.agentsUpdated])

/-- `deleteAgent` (modulo the awaited worktree removal and persistence
file write, which are external): for every tab clear timers and control
entries, then drop the agent. -/
def deleteAgentOp (s : AgentM) (agentId : String) : AgentM × List Ev :=
  match findAgent s agentId with
  | none => (s, [])
  | some ap =>
      let keys := ap.tabs.map (fun p => getControlKey agentId p.1)
      ({ s with
          flushTimers := s.flushTimers.filter (fun k => ¬ keys.contains k),
          controlOwners := s.controlOwners.filter (fun p => ¬ keys.contains p.1),
          agents := alistErase agentId s.agents },
       [Ev.agentsUpdated])

/-- `startTab` (the PTY spawn abstracted to `ptyRunning := true`): `none`
models the throws for a missing agent or tab; an already-running tab is
returned as is; otherwise mark the tab and agent running, open the log
stream when logging is configured, and emit both status events. -/
def startTabOp (s : AgentM) (agentId tabId : String) (logEnabled : Bool) :
    Option (AgentM × List Ev) :=
  match findAgent s agentId with
  | none => none
  | some ap =>
      match alistGet tabId ap.tabs with
      | none => none
      | some tp =>
          if tp.ptyRunning then some (s, [])
          else
            let s1 := updateTab s agentId tabId
              { tp with ptyRunning := true, status := Status.running, logOpen := logEnabled }
            let s2 : AgentM :=
              match findAgent s1 agentId with
              | none => s1
              | some ap1 =>
                  { s1 with agents := alistSet agentId { ap1 with status := Status.running } s1.agents }
            some (s2, [Ev.tabStatus agentId tabId Status.running,
                       Ev.agentStatus agentId Status.running])

/-- The last `n` characters of a string: JS `str.slice(-n)`
(for `n > 0`; the whole string when shorter than `n`). -/
def sliceLast (s : String) (n : Nat) : String :=
  { data := s.data.drop (s.data.length - n) }

/-- The `onExit` handler wired in `startTab`: flush pending data, end the
log stream, persist the last 50000 characters of the first tab's history
(unconditionally, when this tab is the agent's first tab), null the PTY,
mark the tab stopped and emit `tab-status stopped`.  Returns the updated
state, the emitted events and the `updatePersistedAgentBuffer` writes.
It does not touch the agent's own status. -/
def handleTabExit (s : AgentM) (agentId tabId : String) (now : Nat) :
    AgentM × List Ev × List (String × String) :=
  let r1 := flushPendingData s agentId tabId now
  let s1 := r1.1
  match findAgent s1 agentId, findTab s1 agentId tabId with
  | some ap, some tp =>
      let persists : List (String × String) :=
        match ap.tabs with
        | [] => []
        | first :: _ =>
            if tabId = first.1 then
              [(agentId, sliceLast (getOutputHistory s1 agentId tabId) 50000)]
            else []
      (updateTab s1 agentId tabId
         { tp with logOpen := false, ptyRunning := false, status := Status.stopped },
       r1.2 ++ [Ev.tabStatus agentId tabId Status.stopped],
       persists)
  | _, _ => (s1, r1.2, [])

/-- `stopTab`: no-op when the agent, tab or PTY is missing; otherwise
flush pending data, kill the PTY, mark the tab stopped and emit
`tab-status`; then, when no tab of the agent is still running, set the
agent's status to `stopped` and emit `agent-status stopped`. -/
def stopTabOp (s : AgentM) (agentId tabId : String) (now : Nat) : AgentM × List Ev :=
  match findTab s agentId tabId with
  | none => (s, [])
  | some tp =>
      if tp.ptyRunning = false then (s, [])
      else
        let r1 := flushPendingData s agentId tabId now
        let s1 := r1.1
        match findTab s1 agentId tabId with
        | none => (s1, r1.2)
        | some tp1 =>
            let s2 := updateTab s1 agentId tabId
              { tp1 with ptyRunning := false, status := Status.stopped }
            let evs2 := r1.2 ++ [Ev.tabStatus agentId tabId Status.stopped]
            match findAgent s2 agentId with
            | none => (s2, evs2)
            | some ap =>
                if ap.tabs.any (fun p => p.2.status = Status.running) then (s2, evs2)
                else
                  ({ s2 with agents := alistSet agentId { ap with status := Status.stopped } s2.agents },
                   evs2 ++ [Ev.agentStatus agentId Status.stopped])

/-- Per-tab effect of `shutdown()`: `logStream.end()`, `pty.kill()`;
`pendingData` and status untouched. -/
def shutdownTab (tp : TabProcess) : TabProcess :=
  { tp with logOpen := false, ptyRunning := false }

/-- Per-agent effect of `shutdown`: end every log stream and kill every
PTY; statuses and pending data untouched. -/
def shutdownAgent (ap : AgentProcess) : AgentProcess :=
  { ap with tabs := ap.tabs.map (fun q => (q.1, shutdownTab q.2)) }

/-- What `shutdown` persists for one agent: the last 50000 characters of
the FIRST tab's retained chunk history, only when non-empty
(`if (persistBuffer)`). -/
def shutdownPersist (p : String × AgentProcess) : Option (String × String) :=
  match p.2.tabs with
  | [] => none
  | first :: _ =>
      let buf := sliceLast (String.join (first.2.outputChunks.map (fun c => c.data))) 50000
      if buf = "" then none else some (p.1, buf)

/-- `shutdown()`: clear every flush timer (without flushing), persist
each agent's first-tab scrollback, close logs and kill PTYs.  Returns the
state and the persisted `(agentId, buffer)` writes. -/
def shutdownOp (s : AgentM) : AgentM × List (String × String) :=
  ({ s with
      flushTimers := [],
      agents := s.agents.map (fun p => (p.1, shutdownAgent p.2)) },
   s.agents.filterMap shutdownPersist)

/-- The initial registry state built by the constructor +
`loadPersistedAgents`: each surviving persisted agent is admitted idle
with one restored default tab; no control owners, no timers. -/
structure PersistedSeed where
  agentId : String
  tabId : String
  buf : String
  now : Nat

/-- Initial `AgentManager` state from a list of persisted seeds. -/
def initialManager (seeds : List PersistedSeed) : AgentM :=
  { agents := seeds.map (fun p =>
      (p.agentId, { status := Status.idle, tabs := [(p.tabId, restoredTab p.buf p.now)] })),
    controlOwners := [],
    flushTimers := [] }

/-! ## WSHandler (subscriber channel) -/

/-- Per-subscriber state: `clientId`, `attachedAgentId`, `attachedTabId`. -/
structure WSH where
  clientId : String
  attachedAgentId : Option String
  attachedTabId : Option String
deriving DecidableEq

/-- Frames the handler `send`s to its own client (the ones these claims
need). -/
inductive WSMsg where
  | output (data tabId : String)
  | attached (agentId tabId : String) (hasControl : Bool)
  | controlChangedMsg (hasControl : Bool)
  | errorMsg (message : String)
deriving DecidableEq

/-- Effects forwarded into a PTY (`pty.write`, `pty.resize`). -/
inductive PtyEff where
  | write (agentId tabId data : String)
  | resizeEff (agentId tabId : String) (cols rows : Nat)
deriving DecidableEq

/-- `handleControlChanged`: only a handler attached to that exact
(agent, tab) sends `control-changed {hasControl: newOwnerId === clientId}`. -/
def handleControlChanged (h : WSH) (agentId tabId : String) (newOwnerId : Option String) :
    List WSMsg :=
  if h.attachedAgentId = some agentId ∧ h.attachedTabId = some tabId then
    [WSMsg.controlChangedMsg (newOwnerId = some h.clientId)]
  else []

/-- The release `attachToAgent` performs first: if currently attached,
release control of the previous (agent, tab). -/
def releasePrev (h : WSH) (s : AgentM) : AgentM × List Ev :=
  match h.attachedAgentId, h.attachedTabId with
  | some a, some t => releaseControl s a t h.clientId
  | _, _ => (s, [])

/-- `attachToAgent(agentId, tabId?)`: release the previous attachment's
control; resolve the agent (error frame if missing); resolve the target
tab (caller-supplied or the agent's first tab; error frame if none); set
the attachment; start the PTY if not running (`none` = `startTab` threw);
claim control iff no current owner; send `attached` and, when non-empty,
the concatenated history as one `output` frame. -/
def attachToAgent (h : WSH) (s : AgentM) (agentId : String) (tabId : Option String)
    (logEnabled : Bool) : Option (WSH × AgentM × List Ev × List WSMsg) :=
  let rel := releasePrev h s
  let s1 := rel.1
  match findAgent s1 agentId with
  | none => some (h, s1, rel.2, [WSMsg.errorMsg ("Agent not found: " ++ agentId)])
  | some ap =>
      let targetTab : Option String :=
        match tabId with
        | some t => some t
        | none => (ap.tabs.head?).map (fun p => p.1)
      match targetTab with
      | none => some (h, s1, rel.2, [WSMsg.errorMsg ("No tabs available for agent: " ++ agentId)])
      | some t =>
          let h1 := { h with attachedAgentId := some agentId, attachedTabId := some t }
          let ptyLive :=
            match findTab s1 agentId t with
            | some tp => tp.ptyRunning
            | none => false
          let started : Option (AgentM × List Ev) :=
            if ptyLive then some (s1, []) else startTabOp s1 agentId t logEnabled
          match started with
          | none => none
          | some st =>
              let s2 := st.1
              let r3 : AgentM × List Ev × Bool :=
                match getControlOwner s2 agentId t with
                | none =>
                    let g := tryGainControl s2 agentId t h.clientId
                    (g.1, g.2.2, true)
                | some _ => (s2, [], false)
              let history := getOutputHistory r3.1 agentId t
              some (h1, r3.1, rel.2 ++ st.2 ++ r3.2.1,
                    [WSMsg.attached agentId t r3.2.2] ++
                      (if history = "" then [] else [WSMsg.output history t]))

/-- The tab an input/resize frame targets: the frame's `tabId` or the
handler's attached tab. -/
def targetOf (h : WSH) (tabId : Option String) : Option String :=
  match tabId with
  | some t => some t
  | none => h.attachedTabId

/-- `handleInput`: drop unless attached, a target resolves and this client
owns control; then write to the PTY if one is live.  Never changes
manager state and never replies. -/
def handleInput (h : WSH) (s : AgentM) (data : String) (tabId : Option String) :
    AgentM × List PtyEff × List WSMsg :=
  match h.attachedAgentId with
  | none => (s, [], [])
  | some a =>
      match targetOf h tabId with
      | none => (s, [], [])
      | some t =>
          if hasControl s a t h.clientId then
            match findTab s a t with
            | some tp => if tp.ptyRunning then (s, [PtyEff.write a t data], []) else (s, [], [])
            | none => (s, [], [])
          else (s, [], [])

/-- `handleResize`: same admission as `handleInput`, forwarding a resize. -/
def handleResize (h : WSH) (s : AgentM) (cols rows : Nat) (tabId : Option String) :
    AgentM × List PtyEff × List WSMsg :=
  match h.attachedAgentId with
  | none => (s, [], [])
  | some a =>
      match targetOf h tabId with
      | none => (s, [], [])
      | some t =>
          if hasControl s a t h.clientId then
            match findTab s a t with
            | some tp => if tp.ptyRunning then (s, [PtyEff.resizeEff a t cols rows], []) else (s, [], [])
            | none => (s, [], [])
          else (s, [], [])

/-! ## Manager-level reachability -/

/-- One mutating operation of the modeled system.  The WSHandler message
handlers mutate the manager only through these operations
(`attachToAgent` composes `releaseControl`, `startTab` and
`tryGainControl`; `handleInput`/`handleResize` never mutate it), so the
`attach` constructor covers them explicitly as well. -/
inductive MStep : AgentM → AgentM → Prop where
  | gain (s : AgentM) (a t c : String) : MStep s (tryGainControl s a t c).1
  | release (s : AgentM) (a t c : String) : MStep s (releaseControl s a t c).1
  | create (s : AgentM) (a t : String) : MStep s (createAgentOp s a t).1
  | newTab (s : AgentM) (a t : String) : MStep s (createTabOp s a t).1
  | delTab (s : AgentM) (a t : String) : MStep s (closeTabOp s a t).1
  | delAgent (s : AgentM) (a : String) : MStep s (deleteAgentOp s a).1
  | startT (s : AgentM) (a t : String) (le : Bool) (r : AgentM × List Ev)
      (h : startTabOp s a t le = some r) : MStep s r.1
  | stopT (s : AgentM) (a t : String) (now : Nat) : MStep s (stopTabOp s a t now).1
  | pty (s : AgentM) (a t d : String) (now : Nat) : MStep s (handlePtyData s a t d now).1
  | flushStep (s : AgentM) (a t : String) (now : Nat) : MStep s (flushPendingData s a t now).1
  | exitT (s : AgentM) (a t : String) (now : Nat) : MStep s (handleTabExit s a t now).1
  | shut (s : AgentM) : MStep s (shutdownOp s).1
  | attach (s : AgentM) (h : WSH) (a : String) (t : Option String) (le : Bool)
      (r : WSH × AgentM × List Ev × List WSMsg)
      (hr : attachToAgent h s a t le = some r) : MStep s r.2.1

/-- Reachable manager states: an initial (possibly restored) registry
followed by any sequence of operations. -/
inductive MReach : AgentM → Prop where
  | init (seeds : List PersistedSeed) : MReach (initialManager seeds)
  | step {s s' : AgentM} : MReach s → MStep s s' → MReach s'

/-! ## Git worktree model for `tryLocalMerge`

Modelled from the source's shell-command sequence (the repository state
git itself maintains is not part of the TypeScript heap): branches map to
tip commits, HEAD is either on a branch or detached, `git checkout B`
moves HEAD to branch `B`, a clean `git merge` creates one new commit on
the checked-out branch, `git merge --abort` restores the pre-merge tree.
Whether the merge is clean, conflicted (with its unmerged-files list) or
fails unexpectedly is the `outcome` parameter. -/

/-- Abstract state of the source repository. -/
structure RepoState where
  headBranch : Option String
  detachedAt : Nat
  tips : List (String × Nat)
  nextId : Nat
deriving DecidableEq

/-- Tip commit of a branch (0 when unborn; irrelevant to the claims). -/
def tipOf (r : RepoState) (b : String) : Nat :=
  (alistGet b r.tips).getD 0

/-- The commit HEAD points at. -/
def headCommit (r : RepoState) : Nat :=
  match r.headBranch with
  | some b => tipOf r b
  | none => r.detachedAt

/-- `git checkout B`. -/
def checkoutBranch (r : RepoState) (b : String) : RepoState :=
  { r with headBranch := some b }

/-- How the `git merge` attempt ends. -/
inductive MergeOutcome where
  | clean
  | conflicted (files : List String)
  | unexpected (msg : String)
deriving DecidableEq

/-- The result object of `tryLocalMerge`. -/
structure MergeResult where
  success : Bool
  message : String
  branch : String
  targetBranch : String
  conflicts : Option (List String)
deriving DecidableEq

/-- `tryLocalMerge` (steps after branch/target resolution, which the
source derives from `git branch --show-current` &c.): remember the
original branch (`''` when HEAD is detached), check out `targetBranch`
and attempt the merge.  Clean: one new merge commit on `targetBranch`,
success result, no switch back.  Conflicted: collect the unmerged files,
abort (tree restored), check the original branch out again (when there
was one) and return the failure result.  Unexpected error: check the
original branch out again (when there was one) and rethrow. -/
def tryLocalMerge (r : RepoState) (branch targetBranch : String) (outcome : MergeOutcome) :
    RepoState × Except String MergeResult :=
  let originalBranch : String :=
    match r.headBranch with
    | some b => b
    | none => ""
  let r1 := checkoutBranch r targetBranch
  match outcome with
  | MergeOutcome.clean =>
      ({ r1 with tips := alistSet targetBranch r1.nextId r1.tips, nextId := r1.nextId + 1 },
       Except.ok
         { success := true,
           message := "Successfully merged '" ++ branch ++ "' into '" ++ targetBranch ++ "'",
           branch := branch, targetBranch := targetBranch, conflicts := none })
  | MergeOutcome.conflicted files =>
      (if originalBranch = "" then r1 else checkoutBranch r1 originalBranch,
       Except.ok
         { success := false,
           message := "Merge failed due to conflicts. Branch '" ++ branch ++
             "' is ready for manual merge into '" ++ targetBranch ++ "'",
           branch := branch, targetBranch := targetBranch, conflicts := some files })
  | MergeOutcome.unexpected msg =>
      (if originalBranch = "" then r1 else checkoutBranch r1 originalBranch,
       Except.error msg)

/-- Modelled from the spec: the agent status as the reduction over its
tabs — running if any tab is running, else stopped if any tab is stopped,
else idle.  (Used to compare against what the code actually does.) -/
def reduceAgentStatus (tabs : List (String × TabProcess)) : Status :=
  if tabs.any (fun p => p.2.status = Status.running) then Status.running
  else if tabs.any (fun p => p.2.status = Status.stopped) then Status.stopped
  else Status.idle

/-! ## Buffer invariant and concrete states used in witnesses and
counterexamples -/

/-- The retained sequence numbers of a tab, in ring order. -/
def seqsOf (tp : TabProcess) : List Nat :=
  tp.outputChunks.map (fun c => c.seq)

/-- The per-tab buffer invariant: at most `MAX_CHUNKS` chunks are
retained, and their sequence numbers are exactly the contiguous block
ending at `currentSeq - 1`. -/
structure TabInv (tp : TabProcess) : Prop where
  count_le : tp.outputChunks.length ≤ MAX_CHUNKS
  len_le : tp.outputChunks.length ≤ tp.currentSeq
  seqs_eq : seqsOf tp =
    List.range' (tp.currentSeq - tp.outputChunks.length) tp.outputChunks.length

/-- A tab with a live PTY in `running` state. -/
def runningTab : TabProcess :=
  { freshTab with ptyRunning := true, status := Status.running }

/-- One idle agent `A` with one fresh tab `T`. -/
def oneIdleAgent : AgentM :=
  { agents := [("A", { status := Status.idle, tabs := [("T", freshTab)] })],
    controlOwners := [], flushTimers := [] }

/-- One running agent `A` with one running tab `T`. -/
def oneRunningAgent : AgentM :=
  { agents := [("A", { status := Status.running, tabs := [("T", runningTab)] })],
    controlOwners := [], flushTimers := [] }

/-- Agent `A`/tab `T` present, with subscriber `c1` owning control of it. -/
def ownedAgent : AgentM :=
  { agents := [("A", { status := Status.running, tabs := [("T", runningTab)] })],
    controlOwners := [(getControlKey "A" "T", "c1")], flushTimers := [] }

/-- Subscriber `c1`, attached to agent `A`, tab `T`. -/
def wshC1 : WSH :=
  { clientId := "c1", attachedAgentId := some "A", attachedTabId := some "T" }

/-- A restored manager with one agent whose first tab was seeded with
scrollback. -/
def seededManager : AgentM :=
  initialManager [{ agentId := "A", tabId := "T", buf := "hi", now := 3 }]

/-- A source repo sitting on `main`, with an agent branch to merge. -/
def witnessRepo : RepoState :=
  { headBranch := some "main", detachedAt := 0,
    tips := [("main", 5), ("agent/x", 7)], nextId := 10 }

/-! # Theorems

First the generic association-list lemmas, then the buffer invariant,
then the claim theorems. -/

theorem alistGet_nil {α : Type} (k : String) : alistGet k ([] : List (String × α)) = none := rfl

theorem alistGet_cons {α : Type} (k : String) (p : String × α) (l : List (String × α)) :
    alistGet k (p :: l) = if p.1 = k then some p.2 else alistGet k l := by
  by_cases h : p.1 = k
  · rw [alistGet, List.find?_cons_of_pos _ (by simpa using h), if_pos h]
    rfl
  · rw [alistGet, List.find?_cons_of_neg _ (by simpa using h), if_neg h]
    rfl

theorem alistGet_set_self {α : Type} (k : String) (v : α) (l : List (String × α)) :
    alistGet k (alistSet k v l) = some v := by
  induction l with
  | nil => simp [alistSet, alistGet_cons]
  | cons p tl ih =>
      by_cases hp : p.1 = k
      · simp [alistSet, hp, alistGet_cons]
      · simp [alistSet, hp, alistGet_cons, ih]

theorem alistSet_cons_eq {α : Type} (k : String) (v : α) (p : String × α)
    (l : List (String × α)) (h : p.1 = k) : alistSet k v (p :: l) = (k, v) :: l := by
  simp [alistSet, h]

theorem alistSet_cons_ne {α : Type} (k : String) (v : α) (p : String × α)
    (l : List (String × α)) (h : ¬ p.1 = k) : alistSet k v (p :: l) = p :: alistSet k v l := by
  simp [alistSet, h]

theorem alistErase_cons_eq {α : Type} (k : String) (p : String × α)
    (l : List (String × α)) (h : p.1 = k) : alistErase k (p :: l) = alistErase k l := by
  simp [alistErase, List.filter_cons, h]

theorem alistErase_cons_ne {α : Type} (k : String) (p : String × α)
    (l : List (String × α)) (h : ¬ p.1 = k) : alistErase k (p :: l) = p :: alistErase k l := by
  simp [alistErase, List.filter_cons, h]

theorem alistGet_set_ne {α : Type} {k k' : String} (v : α) (l : List (String × α))
    (hne : ¬ k' = k) : alistGet k' (alistSet k v l) = alistGet k' l := by
  have hkk : ¬ k = k' := fun h => hne h.symm
  induction l with
  | nil => simp [alistSet, alistGet_cons, hkk]
  | cons p tl ih =>
      by_cases hp : p.1 = k
      · have hp' : ¬ p.1 = k' := by rw [hp]; exact hkk
        rw [alistSet_cons_eq k v p tl hp, alistGet_cons, alistGet_cons]
        simp [hp', hkk]
      · rw [alistSet_cons_ne k v p tl hp, alistGet_cons, alistGet_cons, ih]

theorem alistGet_erase_self {α : Type} (k : String) (l : List (String × α)) :
    alistGet k (alistErase k l) = none := by
  induction l with
  | nil => rfl
  | cons p tl ih =>
      by_cases hp : p.1 = k
      · rw [alistErase_cons_eq k p tl hp]; exact ih
      · rw [alistErase_cons_ne k p tl hp, alistGet_cons, if_neg hp]; exact ih

theorem alistGet_erase_ne {α : Type} {k k' : String} (l : List (String × α))
    (hne : ¬ k' = k) : alistGet k' (alistErase k l) = alistGet k' l := by
  induction l with
  | nil => rfl
  | cons p tl ih =>
      by_cases hp : p.1 = k
      · have hp' : ¬ p.1 = k' := fun hq => hne (hq.symm.trans hp)
        rw [alistErase_cons_eq k p tl hp, ih, alistGet_cons, if_neg hp']
      · rw [alistErase_cons_ne k p tl hp, alistGet_cons, alistGet_cons, ih]

theorem keys_alistSet_mem {α : Type} (v : α) {k : String} {l : List (String × α)}
    (h : k ∈ l.map Prod.fst) : (alistSet k v l).map Prod.fst = l.map Prod.fst := by
  induction l with
  | nil => cases h
  | cons p tl ih =>
      by_cases hp : p.1 = k
      · simp [alistSet, hp]
      · rw [List.map_cons] at h
        rcases List.mem_cons.mp h with he | ht
        · exact absurd he.symm hp
        · simp [alistSet, hp, ih ht]

theorem keys_alistSet_not_mem {α : Type} (v : α) {k : String} {l : List (String × α)}
    (h : ¬ k ∈ l.map Prod.fst) : (alistSet k v l).map Prod.fst = l.map Prod.fst ++ [k] := by
  induction l with
  | nil => rfl
  | cons p tl ih =>
      simp only [List.map_cons, List.mem_cons, not_or] at h
      have hp : ¬ p.1 = k := fun hc => h.1 hc.symm
      simp [alistSet_cons_ne k v p tl hp, ih h.2]

theorem nodup_keys_alistSet {α : Type} (k : String) (v : α) {l : List (String × α)}
    (h : (l.map Prod.fst).Nodup) : ((alistSet k v l).map Prod.fst).Nodup := by
  by_cases hm : k ∈ l.map Prod.fst
  · rw [keys_alistSet_mem v hm]; exact h
  · rw [keys_alistSet_not_mem v hm]
    simp [List.nodup_append, h, hm]

theorem nodup_keys_filter {α : Type} (q : String × α → Bool) {l : List (String × α)}
    (h : (l.map Prod.fst).Nodup) : ((l.filter q).map Prod.fst).Nodup :=
  List.Nodup.sublist (List.Sublist.map Prod.fst (List.filter_sublist l)) h

theorem nodup_keys_alistErase {α : Type} (k : String) {l : List (String × α)}
    (h : (l.map Prod.fst).Nodup) : ((alistErase k l).map Prod.fst).Nodup :=
  nodup_keys_filter _ h

theorem alist_unique {α : Type} {l : List (String × α)} (h : (l.map Prod.fst).Nodup)
    {k : String} {v w : α} (h1 : (k, v) ∈ l) (h2 : (k, w) ∈ l) : v = w := by
  induction l with
  | nil => cases h1
  | cons p tl ih =>
      rw [List.map_cons, List.nodup_cons] at h
      rcases List.mem_cons.mp h1 with he1 | ht1
      · rcases List.mem_cons.mp h2 with he2 | ht2
        · exact congrArg Prod.snd (he1.trans he2.symm)
        · exfalso
          apply h.1
          rw [List.mem_map]
          exact ⟨(k, w), ht2, by rw [← he1]⟩
      · rcases List.mem_cons.mp h2 with he2 | ht2
        · exfalso
          apply h.1
          rw [List.mem_map]
          exact ⟨(k, v), ht1, by rw [← he2]⟩
        · exact ih h.2 ht1 ht2

/-! ## The per-tab buffer invariant is preserved by every buffer mutator -/

theorem range'_drop (s n k : Nat) : (List.range' s n).drop k = List.range' (s + k) (n - k) := by
  induction k generalizing s n with
  | zero => simp
  | succ m ih =>
      cases n with
      | zero => simp
      | succ n' =>
          rw [List.range'_succ, List.drop_succ_cons, ih]
          have h1 : s + 1 + m = s + (m + 1) := by omega
          have h2 : n' - m = n' + 1 - (m + 1) := by omega
          rw [h1, h2]

theorem trimChunks_spec (cs : List OutputChunk) (n : Nat)
    (h1 : cs.length ≤ MAX_CHUNKS + 1) (h2 : cs.length ≤ n)
    (h3 : cs.map (fun c => c.seq) = List.range' (n - cs.length) cs.length) :
    (trimChunks cs).length ≤ MAX_CHUNKS ∧ (trimChunks cs).length ≤ n ∧
      (trimChunks cs).map (fun c => c.seq)
        = List.range' (n - (trimChunks cs).length) (trimChunks cs).length := by
  rw [trimChunks]
  by_cases htrim : MAX_CHUNKS < cs.length
  · rw [if_pos htrim]
    refine ⟨?_, ?_, ?_⟩
    · rw [List.length_drop]; omega
    · rw [List.length_drop]; omega
    · rw [List.map_drop, h3, range'_drop, List.length_drop]
      have e : n - cs.length + (cs.length - MAX_CHUNKS)
          = n - (cs.length - (cs.length - MAX_CHUNKS)) := by omega
      rw [e]
  · rw [if_neg htrim]
    exact ⟨by omega, h2, h3⟩

theorem tabAddChunk_inv {tp : TabProcess} (d : String) (now : Nat) (h : TabInv tp) :
    TabInv (tabAddChunk tp d now).1 ∧ (tabAddChunk tp d now).1.currentSeq = tp.currentSeq + 1 := by
  obtain ⟨h1, h2, h3⟩ := h
  rw [seqsOf] at h3
  have hs := trimChunks_spec
    (tp.outputChunks ++ [({ seq := tp.currentSeq, data := d, timestamp := now } : OutputChunk)])
    (tp.currentSeq + 1)
    (by simp; omega)
    (by simp; omega)
    (by
      rw [List.length_append, List.length_singleton, List.map_append, h3]
      have e1 : tp.currentSeq + 1 - (tp.outputChunks.length + 1) = tp.currentSeq - tp.outputChunks.length := by
        omega
      rw [e1, List.range'_1_concat, Nat.sub_add_cancel h2]
      rfl)
  exact ⟨⟨hs.1, hs.2.1, hs.2.2⟩, rfl⟩

theorem tabPend_inv {tp : TabProcess} (d : String) (h : TabInv tp) : TabInv (tabPend tp d) :=
  ⟨h.count_le, h.len_le, h.seqs_eq⟩

theorem tabFlush_inv {tp : TabProcess} (now : Nat) (h : TabInv tp) : TabInv (tabFlush tp now) := by
  rw [tabFlush]
  split
  · exact h
  · have := (tabAddChunk_inv tp.pendingData now h).1
    exact ⟨this.count_le, this.len_le, this.seqs_eq⟩

theorem tabFlush_currentSeq (tp : TabProcess) (now : Nat) :
    (tabFlush tp now).currentSeq
      = if tp.pendingData = "" then tp.currentSeq else tp.currentSeq + 1 := by
  rw [tabFlush]
  split <;> rfl

theorem string_append_ne_empty_of_length {s : String} (h : 1 ≤ s.length) : ¬ s = "" := by
  intro hc
  rw [hc] at h
  simp at h

theorem reachTab_inv {tp : TabProcess} {as : List Nat} (h : ReachTab tp as) :
    TabInv tp ∧ as = List.range tp.currentSeq := by
  induction h with
  | new =>
      refine ⟨⟨?_, ?_, ?_⟩, ?_⟩ <;> simp [freshTab, seqsOf, MAX_CHUNKS]
  | restored buf now =>
      by_cases hb : buf = ""
      · refine ⟨⟨?_, ?_, ?_⟩, ?_⟩ <;> simp [restoredTab, hb, seqsOf, MAX_CHUNKS]
      · refine ⟨⟨?_, ?_, ?_⟩, ?_⟩
        · simp [restoredTab, hb, MAX_CHUNKS]
        · simp [restoredTab, hb]
        · simp [seqsOf, restoredTab, hb, List.range'_one]
        · simp only [restoredTab, hb, if_neg, if_false]
          decide
  | pty data now hr ih =>
      rename_i tp' as'
      obtain ⟨hinv, has⟩ := ih
      rw [tabHandlePty, tabHandlePtyAssigns]
      by_cases hcond : MAX_CHUNK_SIZE ≤ (tp'.pendingData ++ data).length
      · have hcond' : MAX_CHUNK_SIZE ≤ (tabPend tp' data).pendingData.length := hcond
        rw [if_pos hcond', if_pos hcond]
        have hne : ¬ (tabPend tp' data).pendingData = "" := by
          apply string_append_ne_empty_of_length
          have : (1 : Nat) ≤ MAX_CHUNK_SIZE := by norm_num [MAX_CHUNK_SIZE]
          omega
        constructor
        · exact tabFlush_inv now (tabPend_inv data hinv)
        · rw [tabFlush_currentSeq, if_neg hne]
          have hc : (tabPend tp' data).currentSeq = tp'.currentSeq := rfl
          rw [hc, has, ← List.range_succ]
      · have hcond' : ¬ MAX_CHUNK_SIZE ≤ (tabPend tp' data).pendingData.length := hcond
        rw [if_neg hcond', if_neg hcond]
        exact ⟨tabPend_inv data hinv, by simpa using has⟩
  | flush now hr ih =>
      rename_i tp' as'
      obtain ⟨hinv, has⟩ := ih
      rw [tabFlushAssigns]
      by_cases hb : tp'.pendingData = ""
      · rw [if_pos hb]
        refine ⟨tabFlush_inv now hinv, ?_⟩
        rw [tabFlush_currentSeq, if_pos hb]
        simpa using has
      · rw [if_neg hb]
        refine ⟨tabFlush_inv now hinv, ?_⟩
        rw [tabFlush_currentSeq, if_neg hb, has, ← List.range_succ]

theorem foldr_max_of_le (l : List Nat) (b : Int) (h : ∀ x ∈ l, (x : Int) ≤ b) :
    l.foldr (fun (n : Nat) (m : Int) => max (n : Int) m) b = b := by
  induction l with
  | nil => rfl
  | cons a tl ih =>
      rw [List.foldr_cons, ih (fun x hx => h x (List.mem_cons_of_mem _ hx))]
      exact max_eq_right (h a (List.mem_cons_self _ _))

theorem highestSeq_range (n : Nat) : highestSeq (List.range n) = (n : Int) - 1 := by
  induction n with
  | zero => simp [highestSeq]
  | succ m ih =>
      rw [List.range_succ, highestSeq, List.foldr_append]
      have hinner : List.foldr (fun (n : Nat) (m : Int) => max (n : Int) m) (-1) [m]
          = (m : Int) := by
        rw [List.foldr_cons, List.foldr_nil]
        exact max_eq_left (le_trans (by norm_num) (Int.natCast_nonneg m))
      rw [hinner, foldr_max_of_le]
      · push_cast
        ring
      · intro x hx
        have := List.mem_range.mp hx
        exact_mod_cast le_of_lt this

/-! ## Manager-level lemmas: lookups and the buffer operations -/

theorem updateTab_controlOwners (s : AgentM) (a t : String) (tp : TabProcess) :
    (updateTab s a t tp).controlOwners = s.controlOwners := by
  rw [updateTab]
  split <;> rfl

theorem updateTab_flushTimers (s : AgentM) (a t : String) (tp : TabProcess) :
    (updateTab s a t tp).flushTimers = s.flushTimers := by
  rw [updateTab]
  split <;> rfl

theorem findTab_updateTab_self {s : AgentM} {a t : String} {tp0 : TabProcess} (tp : TabProcess)
    (h : findTab s a t = some tp0) :
    findTab (updateTab s a t tp) a t = some tp := by
  rw [findTab] at h
  rcases hA : findAgent s a with _ | ap
  · rw [hA] at h
    cases h
  · rw [hA] at h
    rw [updateTab, hA, findTab]
    have hA' : findAgent
        { s with agents := alistSet a { ap with tabs := alistSet t tp ap.tabs } s.agents } a
        = some { ap with tabs := alistSet t tp ap.tabs } := by
      rw [findAgent]
      exact alistGet_set_self _ _ _
    rw [hA']
    exact alistGet_set_self _ _ _

theorem flushPendingData_spec {s : AgentM} {a t : String} {tp : TabProcess} (now : Nat)
    (h : findTab s a t = some tp) :
    findTab (flushPendingData s a t now).1 a t = some (tabFlush tp now) ∧
    (flushPendingData s a t now).2
      = (if tp.pendingData = "" then [] else [Ev.ptyData a t tp.pendingData tp.currentSeq]) ∧
    (flushPendingData s a t now).1.controlOwners = s.controlOwners ∧
    (flushPendingData s a t now).1.flushTimers
      = s.flushTimers.filter (fun k => ¬ k = getControlKey a t) ∧
    (tp.pendingData = "" →
      (flushPendingData s a t now).1
        = { s with flushTimers := s.flushTimers.filter (fun k => ¬ k = getControlKey a t) }) := by
  simp only [flushPendingData]
  have h1 : findTab
      { s with flushTimers := s.flushTimers.filter (fun k => ¬ k = getControlKey a t) } a t
      = some tp := h
  rw [h1]
  dsimp only
  by_cases hb : tp.pendingData = ""
  · rw [if_pos hb]
    refine ⟨?_, by rw [if_pos hb], rfl, rfl, fun _ => rfl⟩
    rw [tabFlush, if_pos hb]
    exact h1
  · rw [if_neg hb]
    refine ⟨?_, by rw [if_neg hb]; rfl, ?_, ?_, fun hc => absurd hc hb⟩
    · rw [tabFlush, if_neg hb]
      exact findTab_updateTab_self _ h1
    · rw [updateTab_controlOwners]
    · rw [updateTab_flushTimers]

theorem handlePtyData_spec {s : AgentM} {a t : String} {tp : TabProcess} (d : String) (now : Nat)
    (h : findTab s a t = some tp) :
    findTab (handlePtyData s a t d now).1 a t = some (tabHandlePty tp d now) ∧
    (handlePtyData s a t d now).2
      = (if MAX_CHUNK_SIZE ≤ (tp.pendingData ++ d).length
         then [Ev.ptyData a t (tp.pendingData ++ d) tp.currentSeq] else []) ∧
    (handlePtyData s a t d now).1.controlOwners = s.controlOwners ∧
    (handlePtyData s a t d now).1.flushTimers
      = (if MAX_CHUNK_SIZE ≤ (tp.pendingData ++ d).length
         then s.flushTimers.filter (fun k => ¬ k = getControlKey a t)
         else if s.flushTimers.contains (getControlKey a t) then s.flushTimers
         else s.flushTimers ++ [getControlKey a t]) := by
  simp only [handlePtyData]
  rw [h]
  dsimp only
  have hupd : findTab (updateTab s a t (tabPend tp d)) a t = some (tabPend tp d) :=
    findTab_updateTab_self _ h
  by_cases hcond : MAX_CHUNK_SIZE ≤ (tabPend tp d).pendingData.length
  · have hcond2 : MAX_CHUNK_SIZE ≤ (tp.pendingData ++ d).length := hcond
    rw [if_pos hcond]
    have hflush := flushPendingData_spec now hupd
    have hne : ¬ (tabPend tp d).pendingData = "" := by
      apply string_append_ne_empty_of_length
      have : (1 : Nat) ≤ MAX_CHUNK_SIZE := by norm_num [MAX_CHUNK_SIZE]
      omega
    refine ⟨?_, ?_, ?_, ?_⟩
    · rw [tabHandlePty, if_pos hcond]
      exact hflush.1
    · rw [if_pos hcond2, hflush.2.1, if_neg hne]
      rfl
    · rw [hflush.2.2.1, updateTab_controlOwners]
    · rw [hflush.2.2.2.1, updateTab_flushTimers, if_pos hcond2]
  · have hcond2 : ¬ MAX_CHUNK_SIZE ≤ (tp.pendingData ++ d).length := hcond
    rw [if_neg hcond]
    rw [updateTab_flushTimers]
    by_cases hct : s.flushTimers.contains (getControlKey a t)
    · rw [if_pos hct]
      refine ⟨?_, by rw [if_neg hcond2], ?_, ?_⟩
      · rw [tabHandlePty, if_neg hcond]
        exact hupd
      · rw [updateTab_controlOwners]
      · rw [if_neg hcond2, if_pos hct]
        exact updateTab_flushTimers _ _ _ _
    · rw [if_neg hct]
      refine ⟨?_, by rw [if_neg hcond2], ?_, ?_⟩
      · rw [tabHandlePty, if_neg hcond]
        exact hupd
      · rw [updateTab_controlOwners]
      · rw [if_neg hcond2, if_neg hct]

/-! ## Claim theorems -/

/-- C1: For every tab and every integer `fromSeq ≥ 0`,
`getOutputChunks(agentId, tabId, fromSeq)` returns exactly the retained
chunks whose seq is `≥ fromSeq`, in increasing seq order, together with
`lastSeq` equal to the highest sequence number ever assigned for that tab
(`highestSeq` of the ghost list of assigned seqs), which is `-1` when no
chunk has ever been assigned. -/
theorem snapshot_returns_suffix_in_order (s : AgentM) (agentId tabId : String) (fromSeq : Int)
    (tp : TabProcess) (as : List Nat)
    (hfind : findTab s agentId tabId = some tp) (hreach : ReachTab tp as)
    (hnn : 0 ≤ fromSeq) :
    (∀ c : OutputChunk, c ∈ (getOutputChunks s agentId tabId fromSeq).1 ↔
        (c ∈ tp.outputChunks ∧ fromSeq ≤ (c.seq : Int))) ∧
    ((getOutputChunks s agentId tabId fromSeq).1.map (fun c => c.seq)).Pairwise (· < ·) ∧
    (getOutputChunks s agentId tabId fromSeq).2 = highestSeq as := by
  obtain ⟨hinv, has⟩ := reachTab_inv hreach
  rw [getOutputChunks, hfind]
  dsimp only
  refine ⟨?_, ?_, ?_⟩
  · intro c
    simp [List.mem_filter]
  · have hpw : (tp.outputChunks.map (fun c => c.seq)).Pairwise (· < ·) := by
      have hse := hinv.seqs_eq
      rw [seqsOf] at hse
      rw [hse]
      exact List.pairwise_lt_range' _ _
    exact List.Pairwise.sublist
      (List.Sublist.map _ (List.filter_sublist _)) hpw
  · rw [has, highestSeq_range]

/-- Witness for C1: the restored manager with scrollback `"hi"`; the
snapshot from 0 reports `lastSeq = highestSeq [0] = 0`. -/
theorem snapshot_returns_suffix_in_order_witness :
    (getOutputChunks seededManager "A" "T" 0).2 = highestSeq [0] :=
  (snapshot_returns_suffix_in_order seededManager "A" "T" 0 (restoredTab "hi" 3) [0]
    (by decide) (ReachTab.restored "hi" 3) (by decide)).2.2

/-- C2: For every reachable tab buffer — reachability covering every
mutating operation: fresh creation, restore-seeding, chunk append with
trim (`handlePtyData` / `flushPendingData`) — the retained chunk count is
at most `MAX_CHUNKS` (1000); for a non-empty buffer
`lastSeq - firstSeq + 1 = chunkCount` (the retained seqs are contiguous);
and no two retained chunks share a seq. -/
theorem buffer_invariants_hold (s : AgentM) (agentId tabId : String)
    (tp : TabProcess) (as : List Nat)
    (hfind : findTab s agentId tabId = some tp) (hreach : ReachTab tp as) :
    (getBufferStats s agentId tabId).chunkCount ≤ MAX_CHUNKS ∧
    (¬ tp.outputChunks = [] →
      (getBufferStats s agentId tabId).lastSeq - (getBufferStats s agentId tabId).firstSeq + 1
        = ((getBufferStats s agentId tabId).chunkCount : Int)) ∧
    (seqsOf tp).Nodup := by
  obtain ⟨hinv, _⟩ := reachTab_inv hreach
  obtain ⟨h1, h2, h3⟩ := hinv
  rw [seqsOf] at h3
  rcases hc : tp.outputChunks with _ | ⟨c, rest⟩
  · rw [getBufferStats, hfind]
    dsimp only
    rw [hc]
    refine ⟨by norm_num [MAX_CHUNKS], fun hne => absurd rfl hne, ?_⟩
    rw [seqsOf, hc]
    exact List.nodup_nil
  · rw [getBufferStats, hfind]
    dsimp only
    rw [hc]
    dsimp only
    rw [hc] at h1 h2 h3
    have h3c := h3
    have hl : (c :: rest).length = rest.length + 1 := by simp
    have hhead : c.seq = tp.currentSeq - (rest.length + 1) := by
      rw [List.map_cons, hl, List.range'_succ] at h3c
      have h4 := congrArg List.head? h3c
      simp only [List.head?_cons] at h4
      exact Option.some.inj h4
    rw [hl] at h2
    refine ⟨h1, fun _ => ?_, ?_⟩
    · rw [hhead, hl]
      omega
    · rw [seqsOf, hc, h3]
      exact List.nodup_range' _ _

/-- Witness for C2 at the restored buffer "hi": stats are 1 chunk,
`lastSeq 0`, `firstSeq 0`. -/
theorem buffer_invariants_hold_witness :
    (getBufferStats seededManager "A" "T").lastSeq
        - (getBufferStats seededManager "A" "T").firstSeq + 1
      = ((getBufferStats seededManager "A" "T").chunkCount : Int) :=
  (buffer_invariants_hold seededManager "A" "T" (restoredTab "hi" 3) [0]
    (by decide) (ReachTab.restored "hi" 3)).2.1 (by decide)

/-- C10: For every agentId or tabId not present in the registry, the
buffer query operations return neutral defaults instead of failing:
`getOutputChunks` gives `{chunks: [], lastSeq: -1}`, `getLastSeq` gives
`-1`, `getBufferStats` gives the all-defaults stats record.  (In the embedding the
three functions are total and return these values without touching the
state, mirroring the early-return defaults in the source.) -/
theorem missing_tab_neutral_defaults (s : AgentM) (agentId tabId : String) (fromSeq : Int)
    (h : findTab s agentId tabId = none) :
    getOutputChunks s agentId tabId fromSeq = ([], -1) ∧
    getLastSeq s agentId tabId = -1 ∧
    getBufferStats s agentId tabId
      = { chunkCount := 0, totalSize := 0, firstSeq := -1, lastSeq := -1 } := by
  refine ⟨?_, ?_, ?_⟩
  · rw [getOutputChunks, h]
  · rw [getLastSeq, h]
  · rw [getBufferStats, h]

/-- Witness for C10: the empty manager knows no agent `a`. -/
theorem missing_tab_neutral_defaults_witness :
    getLastSeq (initialManager []) "a" "t" = -1 :=
  (missing_tab_neutral_defaults (initialManager []) "a" "t" 0 (by decide)).2.1

/-- C4: `tryGainControl` always succeeds: from any prior state it sets
the owner of (agentId, tabId) to the caller, returns `true` and publishes
a `control-changed` event; afterwards the owner lookup returns the
caller, and any subscriber attached to that exact (agent, tab) whose id
differs — in particular the previous owner — receives
`control-changed {hasControl: false}` from its handler. -/
theorem gain_control_always_succeeds (s : AgentM) (agentId tabId clientId : String) :
    (tryGainControl s agentId tabId clientId).2.1 = true ∧
    (tryGainControl s agentId tabId clientId).2.2
      = [Ev.controlChanged agentId tabId (some clientId)] ∧
    getControlOwner (tryGainControl s agentId tabId clientId).1 agentId tabId = some clientId ∧
    (∀ h : WSH, h.attachedAgentId = some agentId → h.attachedTabId = some tabId →
      ¬ h.clientId = clientId →
      handleControlChanged h agentId tabId (some clientId)
        = [WSMsg.controlChangedMsg false]) := by
  refine ⟨rfl, rfl, ?_, ?_⟩
  · rw [getControlOwner, tryGainControl]
    exact alistGet_set_self _ _ _
  · intro h h1 h2 h3
    have hb : decide (some clientId = some h.clientId) = false := by
      simp only [decide_eq_false_iff_not]
      intro hc
      exact h3 (Option.some.inj hc).symm
    rw [handleControlChanged, if_pos ⟨h1, h2⟩, hb]

/-- Witness for C4: subscriber `c2` steals control held by `c1` on
`ownedAgent`; the attached previous owner `c1` is told
`{hasControl: false}`. -/
theorem gain_control_always_succeeds_witness :
    getControlOwner (tryGainControl ownedAgent "A" "T" "c2").1 "A" "T" = some "c2" ∧
    handleControlChanged wshC1 "A" "T" (some "c2") = [WSMsg.controlChangedMsg false] :=
  ⟨(gain_control_always_succeeds ownedAgent "A" "T" "c2").2.2.1,
   (gain_control_always_succeeds ownedAgent "A" "T" "c2").2.2.2 wshC1 rfl rfl (by decide)⟩

/-- C3: `handlePtyData` accumulates into `pendingData` and flushes
synchronously exactly when the pending data has reached
`MAX_CHUNK_SIZE = 4096`; otherwise it leaves the buffer untouched, emits
nothing and ensures one armed flush timer for the tab (arming only when
none is armed — `FLUSH_DEBOUNCE = 50` ms in the source, timing itself
outside the model).  `flushPendingData` on non-empty pending data creates
exactly one chunk carrying the next sequence number (`currentSeq`) whose
data is the entire pending data, empties `pendingData`, cancels the
timer, and publishes the chunk on the event bus; on empty pending data it
assigns no sequence number and publishes nothing. -/
theorem append_coalesce_flush_behavior (s : AgentM) (agentId tabId : String)
    (d : String) (now : Nat) (tp : TabProcess)
    (hfind : findTab s agentId tabId = some tp) :
    (MAX_CHUNK_SIZE ≤ (tp.pendingData ++ d).length →
      findTab (handlePtyData s agentId tabId d now).1 agentId tabId
          = some (tabFlush (tabPend tp d) now) ∧
      (tabFlush (tabPend tp d) now).outputChunks
          = trimChunks (tp.outputChunks
              ++ [{ seq := tp.currentSeq, data := tp.pendingData ++ d, timestamp := now }]) ∧
      (handlePtyData s agentId tabId d now).2
          = [Ev.ptyData agentId tabId (tp.pendingData ++ d) tp.currentSeq] ∧
      ¬ getControlKey agentId tabId ∈ (handlePtyData s agentId tabId d now).1.flushTimers) ∧
    ((tp.pendingData ++ d).length < MAX_CHUNK_SIZE →
      findTab (handlePtyData s agentId tabId d now).1 agentId tabId = some (tabPend tp d) ∧
      (handlePtyData s agentId tabId d now).2 = [] ∧
      getControlKey agentId tabId ∈ (handlePtyData s agentId tabId d now).1.flushTimers ∧
      (getControlKey agentId tabId ∈ s.flushTimers →
        (handlePtyData s agentId tabId d now).1.flushTimers = s.flushTimers)) ∧
    (¬ tp.pendingData = "" →
      findTab (flushPendingData s agentId tabId now).1 agentId tabId
          = some (tabFlush tp now) ∧
      (tabFlush tp now).outputChunks
          = trimChunks (tp.outputChunks
              ++ [{ seq := tp.currentSeq, data := tp.pendingData, timestamp := now }]) ∧
      (tabFlush tp now).currentSeq = tp.currentSeq + 1 ∧
      (tabFlush tp now).pendingData = "" ∧
      (flushPendingData s agentId tabId now).2
          = [Ev.ptyData agentId tabId tp.pendingData tp.currentSeq] ∧
      ¬ getControlKey agentId tabId ∈ (flushPendingData s agentId tabId now).1.flushTimers) ∧
    (tp.pendingData = "" →
      findTab (flushPendingData s agentId tabId now).1 agentId tabId = some tp ∧
      (flushPendingData s agentId tabId now).2 = [] ∧
      (flushPendingData s agentId tabId now).1.agents = s.agents ∧
      (flushPendingData s agentId tabId now).1.controlOwners = s.controlOwners) := by
  have hh := handlePtyData_spec d now hfind
  have hf := flushPendingData_spec now hfind
  refine ⟨?_, ?_, ?_, ?_⟩
  · intro hge
    have hge' : MAX_CHUNK_SIZE ≤ (tabPend tp d).pendingData.length := hge
    have hne' : ¬ (tabPend tp d).pendingData = "" :=
      string_append_ne_empty_of_length (le_trans (by norm_num [MAX_CHUNK_SIZE]) hge')
    refine ⟨?_, ?_, ?_, ?_⟩
    · rw [hh.1, tabHandlePty, if_pos hge']
    · rw [tabFlush, if_neg hne']
      rfl
    · rw [hh.2.1, if_pos hge]
    · rw [hh.2.2.2, if_pos hge]
      simp [List.mem_filter]
  · intro hlt
    have hnge : ¬ MAX_CHUNK_SIZE ≤ (tp.pendingData ++ d).length := by omega
    have hnge' : ¬ MAX_CHUNK_SIZE ≤ (tabPend tp d).pendingData.length := hnge
    refine ⟨?_, ?_, ?_, ?_⟩
    · rw [hh.1, tabHandlePty, if_neg hnge']
    · rw [hh.2.1, if_neg hnge]
    · rw [hh.2.2.2, if_neg hnge]
      by_cases hct : s.flushTimers.contains (getControlKey agentId tabId)
      · rw [if_pos hct]
        simpa using hct
      · rw [if_neg hct]
        simp
    · intro hmem
      rw [hh.2.2.2, if_neg hnge, if_pos (by simpa using hmem)]
  · intro hne
    refine ⟨hf.1, ?_, ?_, ?_, ?_, ?_⟩
    · rw [tabFlush, if_neg hne]
      rfl
    · rw [tabFlush_currentSeq, if_neg hne]
    · rw [tabFlush, if_neg hne]
    · rw [hf.2.1, if_neg hne]
    · rw [hf.2.2.2.1]
      simp [List.mem_filter]
  · intro hemp
    have h5 := hf.2.2.2.2 hemp
    refine ⟨?_, ?_, ?_, ?_⟩
    · rw [hf.1, tabFlush, if_pos hemp]
    · rw [hf.2.1, if_pos hemp]
    · rw [h5]
    · rw [h5]

/-- Witness for C3: one small PTY write on the fresh tab of
`oneIdleAgent` stays pending and arms the timer. -/
theorem append_coalesce_flush_behavior_witness :
    findTab (handlePtyData oneIdleAgent "A" "T" "x" 0).1 "A" "T" = some (tabPend freshTab "x") ∧
    getControlKey "A" "T" ∈ (handlePtyData oneIdleAgent "A" "T" "x" 0).1.flushTimers := by
  have h := (append_coalesce_flush_behavior oneIdleAgent "A" "T" "x" 0 freshTab
    (by decide)).2.1 (by decide)
  exact ⟨h.1, h.2.2.1⟩

/-! ## Control-owner map: every operation keeps its keys duplicate-free -/

theorem flushPendingData_controlOwners (s : AgentM) (a t : String) (now : Nat) :
    (flushPendingData s a t now).1.controlOwners = s.controlOwners := by
  simp only [flushPendingData]
  split
  · rfl
  · split
    · rfl
    · rw [updateTab_controlOwners]

theorem handlePtyData_controlOwners (s : AgentM) (a t d : String) (now : Nat) :
    (handlePtyData s a t d now).1.controlOwners = s.controlOwners := by
  simp only [handlePtyData]
  split
  · rfl
  · split
    · rw [flushPendingData_controlOwners, updateTab_controlOwners]
    · split
      · rw [updateTab_controlOwners]
      · dsimp only
        rw [updateTab_controlOwners]

theorem releaseControl_owners_nodup {s : AgentM} {a t c : String}
    (hnd : (s.controlOwners.map Prod.fst).Nodup) :
    ((releaseControl s a t c).1.controlOwners.map Prod.fst).Nodup := by
  rw [releaseControl]
  split
  · exact nodup_keys_alistErase _ hnd
  · exact hnd

theorem releasePrev_owners_nodup {h : WSH} {s : AgentM}
    (hnd : (s.controlOwners.map Prod.fst).Nodup) :
    ((releasePrev h s).1.controlOwners.map Prod.fst).Nodup := by
  rw [releasePrev]
  split
  · exact releaseControl_owners_nodup hnd
  · exact hnd

theorem createTabOp_controlOwners (s : AgentM) (a t : String) :
    (createTabOp s a t).1.controlOwners = s.controlOwners := by
  rw [createTabOp]
  split <;> rfl

theorem closeTabOp_owners_nodup {s : AgentM} (a t : String)
    (hnd : (s.controlOwners.map Prod.fst).Nodup) :
    ((closeTabOp s a t).1.controlOwners.map Prod.fst).Nodup := by
  rw [closeTabOp]
  split
  · exact hnd
  · split
    · exact hnd
    · exact nodup_keys_alistErase _ hnd

theorem deleteAgentOp_owners_nodup {s : AgentM} (a : String)
    (hnd : (s.controlOwners.map Prod.fst).Nodup) :
    ((deleteAgentOp s a).1.controlOwners.map Prod.fst).Nodup := by
  rw [deleteAgentOp]
  split
  · exact hnd
  · exact nodup_keys_filter _ hnd

theorem startTabOp_controlOwners {s : AgentM} {a t : String} {le : Bool} {r : AgentM × List Ev}
    (h : startTabOp s a t le = some r) : r.1.controlOwners = s.controlOwners := by
  simp only [startTabOp] at h
  split at h
  · exact Option.noConfusion h
  · split at h
    · exact Option.noConfusion h
    · split at h
      · rw [← Option.some.inj h]
      · rw [← Option.some.inj h]
        dsimp only
        split
        · rw [updateTab_controlOwners]
        · dsimp only
          rw [updateTab_controlOwners]

theorem stopTabOp_controlOwners (s : AgentM) (a t : String) (now : Nat) :
    (stopTabOp s a t now).1.controlOwners = s.controlOwners := by
  simp only [stopTabOp]
  split
  · rfl
  · split
    · rfl
    · split
      · dsimp only
        rw [flushPendingData_controlOwners]
      · split
        · rw [updateTab_controlOwners, flushPendingData_controlOwners]
        · split
          · rw [updateTab_controlOwners, flushPendingData_controlOwners]
          · dsimp only
            rw [updateTab_controlOwners, flushPendingData_controlOwners]

theorem handleTabExit_controlOwners (s : AgentM) (a t : String) (now : Nat) :
    (handleTabExit s a t now).1.controlOwners = s.controlOwners := by
  simp only [handleTabExit]
  split
  · rw [updateTab_controlOwners, flushPendingData_controlOwners]
  · dsimp only
    rw [flushPendingData_controlOwners]

theorem shutdownOp_controlOwners (s : AgentM) :
    (shutdownOp s).1.controlOwners = s.controlOwners := rfl

theorem attachToAgent_owners_nodup {h : WSH} {s : AgentM} {a : String} {t : Option String}
    {le : Bool} {r : WSH × AgentM × List Ev × List WSMsg}
    (hr : attachToAgent h s a t le = some r)
    (hnd : (s.controlOwners.map Prod.fst).Nodup) :
    (r.2.1.controlOwners.map Prod.fst).Nodup := by
  have hrel : ((releasePrev h s).1.controlOwners.map Prod.fst).Nodup :=
    releasePrev_owners_nodup hnd
  simp only [attachToAgent] at hr
  split at hr
  · rw [← Option.some.inj hr]
    exact hrel
  · split at hr
    · rw [← Option.some.inj hr]
      exact hrel
    · split at hr
      · exact Option.noConfusion hr
      · rename_i t' st heq
        have hst : st.1.controlOwners = (releasePrev h s).1.controlOwners := by
          split at heq
          · rw [← Option.some.inj heq]
          · exact startTabOp_controlOwners heq
        split at hr
        · rw [← Option.some.inj hr]
          dsimp only
          rw [tryGainControl]
          dsimp only
          rw [hst]
          exact nodup_keys_alistSet _ _ hrel
        · rw [← Option.some.inj hr]
          dsimp only
          rw [hst]
          exact hrel

theorem mreach_owners_nodup {s : AgentM} (h : MReach s) :
    (s.controlOwners.map Prod.fst).Nodup := by
  induction h with
  | init seeds => simp [initialManager]
  | step hm hstep ih =>
      cases hstep with
      | gain a t c => exact nodup_keys_alistSet _ _ ih
      | release a t c => exact releaseControl_owners_nodup ih
      | create a t => exact ih
      | newTab a t => rw [createTabOp_controlOwners]; exact ih
      | delTab a t => exact closeTabOp_owners_nodup a t ih
      | delAgent a => exact deleteAgentOp_owners_nodup a ih
      | startT a t le r hr => rw [startTabOp_controlOwners hr]; exact ih
      | stopT a t now => rw [stopTabOp_controlOwners]; exact ih
      | pty a t d now => rw [handlePtyData_controlOwners]; exact ih
      | flushStep a t now => rw [flushPendingData_controlOwners]; exact ih
      | exitT a t now => rw [handleTabExit_controlOwners]; exact ih
      | shut => rw [shutdownOp_controlOwners]; exact ih
      | attach h a t le r hr => exact attachToAgent_owners_nodup hr ih

/-- C5: At every reachable manager state the control-owner map binds at
most one subscriber id to each (agent, tab) key; and an input or resize
frame from a subscriber that does not currently own the targeted tab is
silently dropped — no PTY write or resize, no state change, no reply. -/
theorem control_exclusivity_and_input_drop (s : AgentM) (hr : MReach s) :
    (∀ (k c₁ c₂ : String), (k, c₁) ∈ s.controlOwners → (k, c₂) ∈ s.controlOwners → c₁ = c₂) ∧
    (∀ (h : WSH) (a t : String) (tabId : Option String) (d : String) (cols rows : Nat),
      h.attachedAgentId = some a → targetOf h tabId = some t →
      hasControl s a t h.clientId = false →
      handleInput h s d tabId = (s, [], []) ∧
      handleResize h s cols rows tabId = (s, [], [])) := by
  refine ⟨?_, ?_⟩
  · intro k c₁ c₂ h1 h2
    exact alist_unique (mreach_owners_nodup hr) h1 h2
  · intro h a t tabId d cols rows ha ht hctl
    constructor
    · rw [handleInput, ha]
      dsimp only
      rw [ht]
      dsimp only
      rw [hctl, if_neg Bool.false_ne_true]
    · rw [handleResize, ha]
      dsimp only
      rw [ht]
      dsimp only
      rw [hctl, if_neg Bool.false_ne_true]

/-- Witness for C5: in the freshly-started (reachable) empty-owner state,
input from the attached but non-owning subscriber `c1` is dropped. -/
theorem control_exclusivity_and_input_drop_witness :
    handleInput wshC1 (initialManager []) "x" none = (initialManager [], [], []) :=
  ((control_exclusivity_and_input_drop (initialManager []) (MReach.init [])).2
    wshC1 "A" "T" none "x" 0 0 rfl rfl (by decide)).1

/-! ## Shutdown (C6): no drain, retained-chunk persistence -/

theorem alistGet_map_val {α β : Type} (f : α → β) (k : String) (l : List (String × α)) :
    alistGet k (l.map (fun p => (p.1, f p.2))) = (alistGet k l).map f := by
  induction l with
  | nil => rfl
  | cons p tl ih =>
      rw [List.map_cons, alistGet_cons, alistGet_cons]
      by_cases hp : p.1 = k
      · simp [hp]
      · simp only [hp, if_neg, if_false]
        exact ih

theorem sliceLast_length_le (str : String) (n : Nat) : (sliceLast str n).length ≤ n := by
  have hd : (sliceLast str n).data = str.data.drop (str.data.length - n) := rfl
  rw [← String.length_data, hd, List.length_drop]
  omega

theorem sliceLast_suffix (str : String) (n : Nat) : (sliceLast str n).data <:+ str.data :=
  List.drop_suffix _ _

/-- C6 counterexample: from the reachable state where PTY data `"x"` is
still pending (its debounce timer armed), `shutdown` leaves the tab's
`pendingData` equal to `"x"` — nothing drained it — and persists nothing,
although the observed output stream is `"x"`.  This refutes the claim
that after `shutdown` every tab's `pendingData` is empty and the
persisted scrollback equals the tail of the observed stream. -/
theorem shutdown_drain_counterexample :
    (findTab (shutdownOp (handlePtyData oneIdleAgent "A" "T" "x" 0).1).1 "A" "T").map
        (fun tp => tp.pendingData) = some "x" ∧
    ¬ ("x" : String) = "" ∧
    (shutdownOp (handlePtyData oneIdleAgent "A" "T" "x" 0).1).2 = [] := by decide

set_option maxRecDepth 4000 in
/-- C6 (amended): `shutdown` clears every flush timer but performs no
flush: each tab's `pendingData` is left exactly as it was (so it need not
be empty), and the scrollback persisted for an agent is recorded for its
first tab only, only when non-empty, and equals the last at-most-50000
characters of the concatenation of that tab's retained chunks — a suffix
of the retained history, not of the full observed stream. -/
theorem shutdown_no_drain_and_persists_retained (s : AgentM) :
    (shutdownOp s).1.flushTimers = [] ∧
    (∀ a t : String, (findTab (shutdownOp s).1 a t).map (fun tp => tp.pendingData)
        = (findTab s a t).map (fun tp => tp.pendingData)) ∧
    (∀ e ∈ (shutdownOp s).2,
      e.2.length ≤ 50000 ∧ ¬ e.2 = "" ∧
      ∃ p ∈ s.agents, p.1 = e.1 ∧ ∃ q, p.2.tabs.head? = some q ∧
        e.2 = sliceLast (String.join (q.2.outputChunks.map (fun c => c.data))) 50000 ∧
        e.2.data <:+ (String.join (q.2.outputChunks.map (fun c => c.data))).data) := by
  refine ⟨rfl, ?_, ?_⟩
  · intro a t
    have hag : (shutdownOp s).1.agents
        = s.agents.map (fun p => (p.1, shutdownAgent p.2)) := rfl
    rw [findTab, findTab, findAgent, findAgent, hag, alistGet_map_val shutdownAgent]
    rcases hA : alistGet a s.agents with _ | ap
    · rfl
    · dsimp only [Option.map, shutdownAgent]
      rw [alistGet_map_val shutdownTab]
      rcases hT : alistGet t ap.tabs with _ | tp
      · rfl
      · rfl
  · intro e he
    obtain ⟨e1, e2⟩ := e
    have he' : (e1, e2) ∈ s.agents.filterMap shutdownPersist := he
    rw [List.mem_filterMap] at he'
    obtain ⟨p, hp, hf⟩ := he'
    rw [shutdownPersist] at hf
    rcases htabs : p.2.tabs with _ | ⟨first, rest⟩
    · rw [htabs] at hf
      exact Option.noConfusion hf
    · rw [htabs] at hf
      dsimp only at hf
      split at hf
      · exact Option.noConfusion hf
      · rename_i hbuf
        rw [Option.some.injEq, Prod.mk.injEq] at hf
        obtain ⟨he1, he2⟩ := hf
        refine ⟨?_, ?_, p, hp, he1, first, by rw [htabs]; rfl, ?_, ?_⟩
        · rw [← he2]
          exact sliceLast_length_le _ _
        · rw [← he2]
          exact hbuf
        · exact he2.symm
        · rw [← he2]
          exact sliceLast_suffix _ _

/-- Witness for C6 (amended), on the seeded manager: the persisted entry
for agent `A` is `"hi"`, within bounds and a suffix of the retained
history. -/
theorem shutdown_no_drain_and_persists_retained_witness :
    ("A", "hi").2.length ≤ 50000 ∧ ¬ ("A", "hi").2 = "" ∧
    ∃ p ∈ seededManager.agents, p.1 = ("A", "hi").1 ∧ ∃ q, p.2.tabs.head? = some q ∧
      ("A", "hi").2 = sliceLast (String.join (q.2.outputChunks.map (fun c => c.data))) 50000 ∧
      ("A", "hi").2.data <:+ (String.join (q.2.outputChunks.map (fun c => c.data))).data :=
  (shutdown_no_drain_and_persists_retained seededManager).2.2 ("A", "hi") (by decide)

/-! ## PTY exit (C7): tab stopped, agent status left alone -/

theorem tabFlush_pendingData (tp : TabProcess) (now : Nat) :
    (tabFlush tp now).pendingData = "" := by
  rw [tabFlush]
  split
  case isTrue h => exact h
  case isFalse h => rfl

theorem findTab_agent_some {s : AgentM} {a t : String} {tp : TabProcess}
    (h : findTab s a t = some tp) :
    ∃ ap, findAgent s a = some ap ∧ alistGet t ap.tabs = some tp := by
  rw [findTab] at h
  rcases hA : findAgent s a with _ | ap
  · rw [hA] at h
    exact Option.noConfusion h
  · rw [hA] at h
    exact ⟨ap, rfl, h⟩

theorem updateTab_agent_status (s : AgentM) (a t : String) (tp : TabProcess) :
    (findAgent (updateTab s a t tp) a).map (fun ap => ap.status)
      = (findAgent s a).map (fun ap => ap.status) := by
  rw [updateTab]
  split
  · rfl
  · rename_i ap hA
    have : findAgent
        { s with agents := alistSet a { ap with tabs := alistSet t tp ap.tabs } s.agents } a
        = some { ap with tabs := alistSet t tp ap.tabs } := by
      rw [findAgent]
      exact alistGet_set_self _ _ _
    rw [this, hA]
    rfl

theorem flushPendingData_agent_status (s : AgentM) (a t : String) (now : Nat) :
    (findAgent (flushPendingData s a t now).1 a).map (fun ap => ap.status)
      = (findAgent s a).map (fun ap => ap.status) := by
  simp only [flushPendingData]
  split
  · rfl
  · split
    · rfl
    · rw [updateTab_agent_status]
      rfl

/-- C7 counterexample: on `oneRunningAgent` (agent `A` running, its one
tab `T` running) a spontaneous PTY exit publishes only
`tab-status stopped`: the agent's own status stays `running`, no
`agent-status` event is emitted, although the spec's reduction over the
tabs now yields `stopped`. -/
theorem pty_exit_agent_status_counterexample :
    (handleTabExit oneRunningAgent "A" "T" 9).2.1 = [Ev.tabStatus "A" "T" Status.stopped] ∧
    (findAgent (handleTabExit oneRunningAgent "A" "T" 9).1 "A").map (fun ap => ap.status)
      = some Status.running ∧
    (findAgent (handleTabExit oneRunningAgent "A" "T" 9).1 "A").map
        (fun ap => reduceAgentStatus ap.tabs) = some Status.stopped := by decide

/-- C7 (amended): when a tab's PTY exits, the handler flushes pending
data, closes the log file, nulls the PTY, marks the tab stopped and
publishes `tab-status stopped` (after the flush's `pty-data` event, if
any) — but it does not recompute or publish the owning agent's status:
the agent's status field is unchanged and no `agent-status` event is
emitted.  (Only `stopTab` recomputes, and then only to `stopped`.) -/
theorem pty_exit_stops_tab_without_agent_recompute (s : AgentM) (a t : String)
    (now : Nat) (tp : TabProcess) (hfind : findTab s a t = some tp) :
    (findTab (handleTabExit s a t now).1 a t).map (fun x => x.pendingData) = some "" ∧
    (findTab (handleTabExit s a t now).1 a t).map (fun x => x.status) = some Status.stopped ∧
    (findTab (handleTabExit s a t now).1 a t).map (fun x => x.logOpen) = some false ∧
    (findTab (handleTabExit s a t now).1 a t).map (fun x => x.ptyRunning) = some false ∧
    (handleTabExit s a t now).2.1
      = (if tp.pendingData = "" then [] else [Ev.ptyData a t tp.pendingData tp.currentSeq])
        ++ [Ev.tabStatus a t Status.stopped] ∧
    (∀ st : Status, ¬ Ev.agentStatus a st ∈ (handleTabExit s a t now).2.1) ∧
    (findAgent (handleTabExit s a t now).1 a).map (fun ap => ap.status)
      = (findAgent s a).map (fun ap => ap.status) := by
  have hfl := flushPendingData_spec now hfind
  obtain ⟨ap1, hA1, hT1⟩ := findTab_agent_some hfl.1
  simp only [handleTabExit]
  rw [hA1, hfl.1]
  dsimp only
  have hupd := findTab_updateTab_self
    ({ tabFlush tp now with
        logOpen := false, ptyRunning := false, status := Status.stopped }) hfl.1
  refine ⟨?_, ?_, ?_, ?_, ?_, ?_, ?_⟩
  · rw [hupd]
    dsimp only [Option.map]
    rw [tabFlush_pendingData]
  · rw [hupd]
    rfl
  · rw [hupd]
    rfl
  · rw [hupd]
    rfl
  · rw [hfl.2.1]
  · intro st
    rw [hfl.2.1]
    by_cases hb : tp.pendingData = "" <;> simp [hb]
  · rw [updateTab_agent_status, flushPendingData_agent_status]

/-- Witness for C7 (amended) on `oneRunningAgent`. -/
theorem pty_exit_stops_tab_without_agent_recompute_witness :
    (findTab (handleTabExit oneRunningAgent "A" "T" 9).1 "A" "T").map (fun x => x.status)
      = some Status.stopped :=
  (pty_exit_stops_tab_without_agent_recompute oneRunningAgent "A" "T" 9 runningTab
    (by decide)).2.1

/-! ## Attach to an unknown agent (C8) -/

theorem releaseControl_agents (s : AgentM) (a t c : String) :
    (releaseControl s a t c).1.agents = s.agents := by
  rw [releaseControl]
  split <;> rfl

theorem releasePrev_agents (h : WSH) (s : AgentM) :
    (releasePrev h s).1.agents = s.agents := by
  rw [releasePrev]
  split
  · rw [releaseControl_agents]
  · rfl

/-- C8 counterexample: subscriber `c1` is attached to `(A, T)` and owns
control; an attach request for the unknown agent `B` replies with an
error frame as claimed, BUT it first releases `c1`'s control of `(A, T)`:
the control-owner map shrinks from one entry to none and a
`control-changed` event is published — so the operation is not free of
state changes and events. -/
theorem attach_unknown_agent_counterexample :
    attachToAgent wshC1 ownedAgent "B" none false
      = some (wshC1, { ownedAgent with controlOwners := [] },
          [Ev.controlChanged "A" "T" none], [WSMsg.errorMsg "Agent not found: B"]) ∧
    ¬ ownedAgent.controlOwners = ([] : List (String × String)) := by decide

/-- C8 (amended): for an attach request naming an unknown agentId the
server replies with exactly one error frame and the subscriber's attached
(agent, tab) is unchanged; the only state change and the only published
event come from the release step that `attachToAgent` performs first:
when the subscriber owned its previously attached tab, that owner-map
entry is removed and `control-changed` is published; when it was not
attached or not the owner, the state is untouched and no event is
published. -/
theorem attach_unknown_agent_error_after_release (h : WSH) (s : AgentM) (agentId : String)
    (tabId : Option String) (le : Bool) (hmiss : findAgent s agentId = none) :
    attachToAgent h s agentId tabId le
      = some (h, (releasePrev h s).1, (releasePrev h s).2,
          [WSMsg.errorMsg ("Agent not found: " ++ agentId)]) ∧
    (∀ a t : String, h.attachedAgentId = some a → h.attachedTabId = some t →
      ¬ getControlOwner s a t = some h.clientId → releasePrev h s = (s, [])) ∧
    (h.attachedAgentId = none → releasePrev h s = (s, [])) := by
  refine ⟨?_, ?_, ?_⟩
  · have hmiss' : findAgent (releasePrev h s).1 agentId = none := by
      rw [findAgent] at hmiss ⊢
      rw [releasePrev_agents]
      exact hmiss
    simp only [attachToAgent]
    rw [hmiss']
  · intro a t ha ht hno
    rw [releasePrev, ha, ht]
    dsimp only
    rw [getControlOwner] at hno
    rw [releaseControl, if_neg hno]
  · intro ha
    rw [releasePrev, ha]

/-- Witness for C8 (amended): an unattached subscriber attaching to the
unknown agent `B` gets only the error frame; nothing changes. -/
theorem attach_unknown_agent_error_after_release_witness :
    attachToAgent { clientId := "c9", attachedAgentId := none, attachedTabId := none }
        (initialManager []) "B" none false
      = some ({ clientId := "c9", attachedAgentId := none, attachedTabId := none },
          initialManager [], [], [WSMsg.errorMsg "Agent not found: B"]) := by
  have h := attach_unknown_agent_error_after_release
      { clientId := "c9", attachedAgentId := none, attachedTabId := none }
      (initialManager []) "B" none false (by decide)
  rw [h.1, h.2.2 rfl]
  rfl

/-! ## Local merge (C9) -/

theorem checkoutBranch_tips (r : RepoState) (b b' : String) :
    tipOf (checkoutBranch r b) b' = tipOf r b' := rfl

/-- C9: `tryLocalMerge` on a source repo whose HEAD is on a branch `ob`
(the TypeScript reads it with `git branch --show-current`; a branch name
is never the empty string): on a conflicted merge it returns
`{success: false, conflicts, branch, targetBranch, message}` after
aborting and restoring the original branch, so HEAD equals the pre-call
HEAD; on a clean merge the repo is left on `targetBranch` with HEAD the
new merge commit and it returns `{success: true, branch, targetBranch}`;
an unexpected failure still restores the original branch and rethrows. -/
theorem try_local_merge_atomicity (r : RepoState) (branch targetBranch ob : String)
    (outcome : MergeOutcome) (hb : r.headBranch = some ob) (hne : ¬ ob = "") :
    (∀ files, outcome = MergeOutcome.conflicted files →
      (tryLocalMerge r branch targetBranch outcome).1.headBranch = some ob ∧
      headCommit (tryLocalMerge r branch targetBranch outcome).1 = headCommit r ∧
      (tryLocalMerge r branch targetBranch outcome).2
        = Except.ok
            { success := false,
              message := "Merge failed due to conflicts. Branch '" ++ branch ++
                "' is ready for manual merge into '" ++ targetBranch ++ "'",
              branch := branch, targetBranch := targetBranch, conflicts := some files }) ∧
    (outcome = MergeOutcome.clean →
      (tryLocalMerge r branch targetBranch outcome).1.headBranch = some targetBranch ∧
      tipOf (tryLocalMerge r branch targetBranch outcome).1 targetBranch = r.nextId ∧
      headCommit (tryLocalMerge r branch targetBranch outcome).1 = r.nextId ∧
      (tryLocalMerge r branch targetBranch outcome).2
        = Except.ok
            { success := true,
              message := "Successfully merged '" ++ branch ++ "' into '" ++ targetBranch ++ "'",
              branch := branch, targetBranch := targetBranch, conflicts := none }) ∧
    (∀ msg, outcome = MergeOutcome.unexpected msg →
      (tryLocalMerge r branch targetBranch outcome).1.headBranch = some ob ∧
      headCommit (tryLocalMerge r branch targetBranch outcome).1 = headCommit r ∧
      (tryLocalMerge r branch targetBranch outcome).2 = Except.error msg) := by
  refine ⟨?_, ?_, ?_⟩
  · intro files hout
    subst hout
    refine ⟨?_, ?_, ?_⟩
    · simp [tryLocalMerge, hb, hne, checkoutBranch]
    · simp [tryLocalMerge, hb, hne, checkoutBranch, headCommit, tipOf]
    · simp [tryLocalMerge, hb, hne]
  · intro hout
    subst hout
    refine ⟨?_, ?_, ?_, ?_⟩
    · simp [tryLocalMerge, hb, hne, checkoutBranch]
    · simp [tryLocalMerge, hb, hne, checkoutBranch, tipOf, alistGet_set_self]
    · simp [tryLocalMerge, hb, hne, checkoutBranch, headCommit, tipOf, alistGet_set_self]
    · simp [tryLocalMerge, hb, hne]
  · intro msg hout
    subst hout
    refine ⟨?_, ?_, ?_⟩
    · simp [tryLocalMerge, hb, hne, checkoutBranch]
    · simp [tryLocalMerge, hb, hne, checkoutBranch, headCommit, tipOf]
    · simp [tryLocalMerge, hb, hne]

/-- Witness for C9: a conflicted merge of `agent/x` into `main` on the
concrete `witnessRepo` leaves HEAD back on `main` at its pre-call
commit. -/
theorem try_local_merge_atomicity_witness :
    (tryLocalMerge witnessRepo "agent/x" "main" (MergeOutcome.conflicted ["x.txt"])).1.headBranch
        = some "main" ∧
    headCommit (tryLocalMerge witnessRepo "agent/x" "main"
        (MergeOutcome.conflicted ["x.txt"])).1 = headCommit witnessRepo := by
  have h := try_local_merge_atomicity witnessRepo "agent/x" "main" "main"
    (MergeOutcome.conflicted ["x.txt"]) rfl (by decide)
  exact ⟨(h.1 ["x.txt"] rfl).1, (h.1 ["x.txt"] rfl).2.1⟩
